import Mathlib

/-!
Verification development for the ollama-turbo-coder provider layer.

This file shallowly embeds the provider abstraction and streaming-completion
aggregation layer of the repository:

* `src/electron/providers/localOllamaProvider.js` — `LocalOllamaProvider`
  (cache-backed `listModels`, `pullModel`, `deleteModel`,
  `validateConnection`, `handleChatStream`, `cleanMessages`) and the
  `ProviderFactory` registry;
* `src/unnamed/part_003` — `OllamaTurboProvider` (`validateConnection`,
  and, from the copy of the class at lines 447-634 cited by the claims,
  `handleChatStream` and `cleanMessages`; its `cleanMessages` and the
  streaming loop of its `handleChatStream` are textually identical to the
  local provider's, so they are embedded once and shared — the providers
  differ in their `catch` blocks, see `turboOnErr`);
* `src/electron/utils.js` — `limitContentLength`.

Modelling conventions: JavaScript strings are Lean `String`s (character
based), except `limitContentLength` whose content is a `List Char`;
`undefined`/`null`-able values are `Option`s; JavaScript truthiness of
strings/numbers is modelled explicitly (`jsOrS`, `truthyOpt`, `orNatJS`);
wall-clock readings (`Date.now()`) are `Nat` parameters threaded in;
exceptions become `Except`/structured results; event emission
(`event.sender.send`) and backend I/O become an explicit `Action` trace.
JSON numbers are modelled as integers.
-/

/-- JavaScript `a || b` for an optional string `a` (absent or empty is falsy). -/
def jsOrS (a : Option String) (b : String) : String :=
  match a with
  | some s => if s = "" then b else s
  | none => b

/-- JavaScript `a || b` where both sides are optional strings. -/
def jsOrOpt (a b : Option String) : Option String :=
  match a with
  | some s => if s = "" then b else some s
  | none => b

/-- Collapse a JavaScript-falsy string option (`none` or `some ""`) to `none`. -/
def truthyOpt (o : Option String) : Option String :=
  match o with
  | some s => if s = "" then none else some s
  | none => none

/-- JavaScript `a || d` for an optional number (absent or zero is falsy). -/
def orNatJS (a : Option Nat) (d : Nat) : Nat :=
  match a with
  | some n => if n = 0 then d else n
  | none => d

/-- Substring containment on character lists (JavaScript `String.includes`). -/
def containsSub : List Char → List Char → Bool
  | l, pat =>
    if pat.isPrefixOf l then true
    else match l with
      | [] => false
      | _ :: t => containsSub t pat

/-- JavaScript `s.includes(pat)`. -/
def strIncludes (s pat : String) : Bool := containsSub s.data pat.data

/-- Left brace character (written via its code point). -/
def lbrace : Char := Char.ofNat 123

/-- Right brace character (written via its code point). -/
def rbrace : Char := Char.ofNat 125

/-- JSON values as JavaScript `JSON.parse` produces them; numbers are
modelled as integers. -/
inductive JVal where
  | jnull : JVal
  | jbool : Bool → JVal
  | jnum : Int → JVal
  | jstr : String → JVal
  | jarr : List JVal → JVal
  | jobj : List (String × JVal) → JVal

/-- Escape one character for a JSON string literal. -/
def escChar (c : Char) : String :=
  if c = '"' then "\\\""
  else if c = '\\' then "\\\\"
  else if c = '\n' then "\\n"
  else if c = '\t' then "\\t"
  else if c = '\r' then "\\r"
  else String.singleton c

/-- JSON string literal serialization. -/
def escapeStr (s : String) : String :=
  "\"" ++ String.join (s.data.map escChar) ++ "\""

mutual

/-- `JSON.stringify` over `JVal` (canonical serialization: no added
whitespace, object fields in stored order). -/
def stringify : JVal → String
  | .jnull => "null"
  | .jbool b => if b then "true" else "false"
  | .jnum n => toString n
  | .jstr s => escapeStr s
  | .jarr xs => "[" ++ stringifyArr xs ++ "]"
  | .jobj fs => String.singleton lbrace ++ stringifyObj fs ++ String.singleton rbrace

/-- Comma-separated serialization of array elements. -/
def stringifyArr : List JVal → String
  | [] => ""
  | [x] => stringify x
  | x :: y :: xs => stringify x ++ "," ++ stringifyArr (y :: xs)

/-- Comma-separated serialization of object fields. -/
def stringifyObj : List (String × JVal) → String
  | [] => ""
  | [(k, v)] => escapeStr k ++ ":" ++ stringify v
  | (k, v) :: f :: fs => escapeStr k ++ ":" ++ stringify v ++ "," ++ stringifyObj (f :: fs)

end

/-- Skip JSON whitespace. -/
def skipWs : List Char → List Char
  | c :: cs => if c = ' ' ∨ c = '\n' ∨ c = '\t' ∨ c = '\r' then skipWs cs else c :: cs
  | [] => []

/-- Scan a JSON string literal body (after the opening quote), with fuel.
Simple escapes only (enough for the canonical serializations the
application itself produces). -/
def parseStrAux : Nat → List Char → String → Option (String × List Char)
  | 0, _, _ => none
  | _ + 1, [], _ => none
  | n + 1, c :: cs, acc =>
    if c = '"' then some (acc, cs)
    else if c = '\\' then
      match cs with
      | [] => none
      | e :: cs₂ =>
        let ch := if e = 'n' then '\n' else if e = 't' then '\t' else if e = 'r' then '\r' else e
        parseStrAux n cs₂ (acc.push ch)
    else parseStrAux n cs (acc.push c)

/-- Scan a run of decimal digits. -/
def parseDigits : List Char → Nat → Option (Nat × List Char)
  | c :: cs, acc =>
    if c.isDigit then
      match parseDigits cs (acc * 10 + (c.toNat - 48)) with
      | some r => some r
      | none => some (acc * 10 + (c.toNat - 48), cs)
    else none
  | [], _ => none

/-- Parse a JSON integer (optional leading minus). -/
def parseNum (cs : List Char) : Option (JVal × List Char) :=
  match cs with
  | '-' :: rest =>
    match parseDigits rest 0 with
    | some (n, rem) => some (.jnum (-(n : Int)), rem)
    | none => none
  | _ =>
    match parseDigits cs 0 with
    | some (n, rem) => some (.jnum (n : Int), rem)
    | none => none

mutual

/-- Fuel-indexed JSON parser: one value. Models `JSON.parse` on the
integer fragment of JSON. -/
def parseVal : Nat → List Char → Option (JVal × List Char)
  | 0, _ => none
  | Nat.succ n, cs =>
    match skipWs cs with
    | [] => none
    | c :: rest =>
      if c = '"' then
        match parseStrAux (rest.length + 1) rest "" with
        | some (s, rem) => some (.jstr s, rem)
        | none => none
      else if c = lbrace then
        match skipWs rest with
        | c₂ :: rest₂ =>
          if c₂ = rbrace then some (.jobj [], rest₂)
          else parseObjMems n (c₂ :: rest₂) []
        | [] => none
      else if c = '[' then
        match skipWs rest with
        | ']' :: rest₂ => some (.jarr [], rest₂)
        | cs₂ => parseArrElems n cs₂ []
      else if c = 't' then
        if "rue".data.isPrefixOf rest then some (.jbool true, rest.drop 3) else none
      else if c = 'f' then
        if "alse".data.isPrefixOf rest then some (.jbool false, rest.drop 4) else none
      else if c = 'n' then
        if "ull".data.isPrefixOf rest then some (.jnull, rest.drop 3) else none
      else parseNum (c :: rest)

/-- Fuel-indexed JSON parser: object members after the opening brace. -/
def parseObjMems : Nat → List Char → List (String × JVal) → Option (JVal × List Char)
  | 0, _, _ => none
  | Nat.succ n, cs, acc =>
    match skipWs cs with
    | c :: rest =>
      if c = '"' then
        match parseStrAux (rest.length + 1) rest "" with
        | some (k, rest₂) =>
          match skipWs rest₂ with
          | ':' :: rest₃ =>
            match parseVal n rest₃ with
            | some (v, rest₄) =>
              match skipWs rest₄ with
              | ',' :: rest₅ => parseObjMems n rest₅ (acc ++ [(k, v)])
              | c₂ :: rest₅ =>
                if c₂ = rbrace then some (.jobj (acc ++ [(k, v)]), rest₅) else none
              | [] => none
            | none => none
          | _ => none
        | none => none
      else none
    | [] => none

/-- Fuel-indexed JSON parser: array elements after the opening bracket. -/
def parseArrElems : Nat → List Char → List JVal → Option (JVal × List Char)
  | 0, _, _ => none
  | Nat.succ n, cs, acc =>
    match parseVal n cs with
    | some (v, rest) =>
      match skipWs rest with
      | ',' :: rest₂ => parseArrElems n rest₂ (acc ++ [v])
      | ']' :: rest₂ => some (.jarr (acc ++ [v]), rest₂)
      | _ => none
    | none => none

end

/-- `JSON.parse` model: parse a whole string, rejecting trailing input. -/
def jparse (s : String) : Option JVal :=
  match parseVal (s.length + 1) s.data with
  | some (v, rest) => if (skipWs rest).isEmpty then some v else none
  | none => none

/-- One element of a mixed-content message: a text part, an image part
(`{type: 'image_url', image_url: {url}, url}` with either url field possibly
absent), or a part of any other type (dropped by normalization). -/
inductive MsgPart where
  | text : String → MsgPart
  | image : Option String → Option String → MsgPart
  | misc : MsgPart

/-- `part.type === 'text'`. -/
def isTextPart : MsgPart → Bool
  | .text _ => true
  | _ => false

/-- `part.type === 'image_url'`. -/
def isImagePart : MsgPart → Bool
  | .image _ _ => true
  | _ => false

/-- `p.text` of a text part. -/
def partText : MsgPart → String
  | .text s => s
  | _ => ""

/-- Message content: either a plain string or an ordered list of parts. -/
inductive Content where
  | str : String → Content
  | parts : List MsgPart → Content

/-- Tool-call arguments as carried inside a message: either JSON text or a
structured value. -/
inductive ArgRep where
  | argStr : String → ArgRep
  | argObj : JVal → ArgRep

/-- A tool call stored on a message (`{id, type, function: {name, arguments}}`,
with the `function` wrapper flattened). -/
structure ToolCallMsg where
  id : String
  type : String
  name : String
  arguments : ArgRep

/-- Internal UI-facing message. `reasoning`/`isStreaming` are the
internal-only bookkeeping fields stripped by normalization; `images` may
hold entries that are `none` (JavaScript `undefined` array elements). -/
structure Msg where
  role : String
  content : Content
  tool_calls : Option (List ToolCallMsg)
  reasoning : Option String
  isStreaming : Option Bool
  images : Option (List (Option String))

/-- The per-image-part value put into the Ollama `images` field:
`p.image_url?.url || p.url`, with the base64 payload extracted from a
`data:` URL (`url.split(',')[1]`, `none` when the URL has no comma). -/
def imageEntry (p : MsgPart) : Option String :=
  match p with
  | .image iuu u =>
    match jsOrOpt iuu u with
    | some s => if s.startsWith "data:" then (s.splitOn ",").get? 1 else some s
    | none => none
  | _ => none

/-- Convert one stored tool call's arguments back to a structured value
(`JSON.parse` when it is a string); a parse failure is the exception
`JSON.parse` throws. -/
def cleanToolCall (tc : ToolCallMsg) : Except String ToolCallMsg :=
  match tc.arguments with
  | .argStr s =>
    match jparse s with
    | some j => .ok { tc with arguments := .argObj j }
    | none => .error "Unexpected token in JSON"
  | .argObj j => .ok { tc with arguments := .argObj j }

/-- `cleanMessages` applied to one message (both providers share this code):
strips `reasoning`/`isStreaming`; for a user message with part-list content
moves image parts into `images` (when any are present) and joins the text
parts with a space; coerces any remaining part-list content to a string by
joining text parts with no separator; converts stored tool-call arguments
back to structured values. -/
def cleanMsg1 (m : Msg) : Except String Msg :=
  let ci :=
    if m.role = "user" then
      match m.content with
      | .parts ps =>
        let textParts := ps.filter isTextPart
        let imageParts := ps.filter isImagePart
        let imgs := if imageParts.isEmpty then m.images else some (imageParts.map imageEntry)
        (Content.str (String.intercalate " " (textParts.map partText)), imgs)
      | c => (c, m.images)
    else (m.content, m.images)
  let content₂ : String :=
    match ci.1 with
    | .str s => s
    | .parts ps => String.join ((ps.filter isTextPart).map partText)
  match m.tool_calls with
  | none => .ok ⟨m.role, .str content₂, none, none, none, ci.2⟩
  | some tcs =>
    match tcs.mapM cleanToolCall with
    | .ok tcs₂ => .ok ⟨m.role, .str content₂, some tcs₂, none, none, ci.2⟩
    | .error e => .error e

/-- `cleanMessages` (identical in `LocalOllamaProvider` and
`OllamaTurboProvider`); a thrown `JSON.parse` exception aborts the whole
map. -/
def cleanMessages (msgs : List Msg) : Except String (List Msg) :=
  msgs.mapM cleanMsg1

/-- A model record as returned by the Ollama backend's `list()` call
(`details` flattened; `parameter_size` modelled as a number). -/
structure RawModel where
  name : String
  parameter_size : Option Nat
  families : Option (List String)
  size : Option Nat
  modified_at : Option String
deriving DecidableEq

/-- The provider's model descriptor built by `LocalOllamaProvider.listModels`. -/
structure ModelDesc where
  id : String
  name : String
  context : Nat
  vision : Bool
  builtin_tools : Bool
  size : Option Nat
  modified : Option String
deriving DecidableEq

/-- `LocalOllamaProvider.listModels`' per-model transformation of the backend
response. -/
def transformModel (m : RawModel) : ModelDesc :=
  { id := m.name
    name := m.name
    context := orNatJS m.parameter_size 8192
    vision := (m.families.getD []).contains "clip"
    builtin_tools := (m.families.getD []).contains "tools"
    size := m.size
    modified := m.modified_at }

/-- `LocalOllamaProvider`'s model-cache fields (`cachedModels`,
`lastModelCheck`). -/
structure CacheState where
  cachedModels : Option (List ModelDesc)
  lastModelCheck : Option Nat
deriving DecidableEq

/-- `MODEL_CACHE_DURATION` (one minute). -/
def MODEL_CACHE_DURATION : Nat := 60000

/-- Result of one `listModels()` call: the returned models, the provider's
cache state afterwards, and how many backend queries were issued. -/
structure ListResult where
  models : List ModelDesc
  state : CacheState
  queries : Nat
deriving DecidableEq

/-- `LocalOllamaProvider.listModels`. `now` is `Date.now()`; `backend` is the
backend's response to `client.list()` (`none` covers both a thrown transport
error and a response without a `models` field — in both cases the method
returns `[]` and leaves the cache untouched). The JavaScript truthiness test
on `lastModelCheck` makes a stored timestamp of `0` falsy. -/
def listModels (st : CacheState) (now : Nat) (backend : Option (List RawModel)) : ListResult :=
  let fetch : ListResult :=
    match backend with
    | none => ⟨[], st, 1⟩
    | some raws =>
      let models := raws.map transformModel
      ⟨models, ⟨some models, some now⟩, 1⟩
  match st.cachedModels, st.lastModelCheck with
  | some ms, some t =>
    if t ≠ 0 ∧ now - t < MODEL_CACHE_DURATION then ⟨ms, st, 0⟩ else fetch
  | _, _ => fetch

/-- Structured success/failure result (`{success, error?}`). -/
structure OpResult where
  success : Bool
  error : Option String
deriving DecidableEq

/-- `LocalOllamaProvider.pullModel`: on success the model cache is cleared
(`cachedModels = null`; `lastModelCheck` is not touched); on a thrown error
the structured failure is returned and the cache is left as it was. -/
def pullModel (st : CacheState) (outcome : Except String Unit) : OpResult × CacheState :=
  match outcome with
  | .ok _ => (⟨true, none⟩, { st with cachedModels := none })
  | .error m => (⟨false, some (jsOrS (some m) "Failed to pull model")⟩, st)

/-- `LocalOllamaProvider.deleteModel` (same cache behavior as `pullModel`). -/
def deleteModel (st : CacheState) (outcome : Except String Unit) : OpResult × CacheState :=
  match outcome with
  | .ok _ => (⟨true, none⟩, { st with cachedModels := none })
  | .error m => (⟨false, some (jsOrS (some m) "Failed to delete model")⟩, st)

/-- Outcome of the backend round trip attempted by `validateConnection`:
either `client.list()` returned (with or without a usable `models` array)
or it threw, with an optional error `code` and `message`. -/
inductive VCOutcome where
  | resp : Option (List RawModel) → VCOutcome
  | exn : Option String → Option String → VCOutcome

/-- `LocalOllamaProvider.validateConnection`: total — every backend outcome
is converted into a structured `{success, error?}` result. -/
def localValidateConnection : VCOutcome → OpResult
  | .resp none =>
    ⟨false, some "Local Ollama server is not responding. Please ensure Ollama is running locally."⟩
  | .resp (some _) => ⟨true, none⟩
  | .exn code msg =>
    if code = some "ECONNREFUSED" then
      ⟨false, some "Cannot connect to local Ollama server. Please ensure Ollama is running (ollama serve)."⟩
    else ⟨false, some (jsOrS msg "Failed to connect to local Ollama server")⟩

/-- A usable Ollama Turbo API key is present and not the placeholder
(`!this.apiKey || this.apiKey === "<replace me>"` makes `initialize` throw). -/
def validKey (k : Option String) : Bool :=
  match k with
  | some s => s ≠ "" && s ≠ "<replace me>"
  | none => false

/-- `OllamaTurboProvider.validateConnection`: the lazy `initialize` raises
inside the `try` when the key is unusable, so even that case yields a
structured failure; success requires a non-empty model list. -/
def turboValidateConnection (apiKey : Option String) (isInit : Bool) (o : VCOutcome) : OpResult :=
  if !isInit && !validKey apiKey then
    ⟨false, some "API key not configured. Please add your Ollama API key in settings."⟩
  else
    match o with
    | .resp (some (_ :: _)) => ⟨true, none⟩
    | .resp _ => ⟨false, some "No models available"⟩
    | .exn _ msg => ⟨false, some (jsOrS msg "Failed to connect to Ollama Turbo")⟩

/-- An entry of the model capability table (`modelContextSizes[...]` /
`availableModels.find(...)` / the inline default); Boolean fields that a
given object lacks read as JavaScript `undefined`, i.e. `false`. -/
structure CapEntry where
  context : Nat
  vision_supported : Bool
  vision : Bool
  builtin_tools : Bool
  builtin_tools_supported : Bool
deriving DecidableEq

/-- View a `ModelDesc` from `listModels` as a capability entry
(it has `vision`/`builtin_tools` but no `vision_supported`). -/
def descToCap (d : ModelDesc) : CapEntry :=
  ⟨d.context, false, d.vision, d.builtin_tools, false⟩

/-- The local provider's inline fallback `{context: 8192, vision_supported: false}`. -/
def defaultCapLocal : CapEntry := ⟨8192, false, false, false, false⟩

/-- The turbo provider's inline fallback `{context: 131072, vision_supported: false}`. -/
def defaultCapTurbo : CapEntry := ⟨131072, false, false, false, false⟩

/-- `modelContextSizes[key]` on the capability table. -/
def lookupCap (t : List (String × CapEntry)) (k : String) : Option CapEntry :=
  List.lookup k t

/-- `modelContextSizes[m] || availableModels.find(x => x.id === m) || default`
in `LocalOllamaProvider.handleChatStream`. -/
def localModelInfo (capTable : List (String × CapEntry)) (avail : List ModelDesc)
    (mdl : String) : CapEntry :=
  match lookupCap capTable mdl with
  | some ce => ce
  | none =>
    match avail.find? (fun d => d.id == mdl) with
    | some d => descToCap d
    | none => defaultCapLocal

/-- `modelContextSizes[m] || modelContextSizes['default'] || default` in
`OllamaTurboProvider.handleChatStream`. -/
def turboModelInfo (capTable : List (String × CapEntry)) (mdl : String) : CapEntry :=
  match lookupCap capTable mdl with
  | some ce => ce
  | none =>
    match lookupCap capTable "default" with
    | some ce => ce
    | none => defaultCapTurbo

/-- `messages.some(msg => msg.role === 'user' && Array.isArray(msg.content)
&& msg.content.some(part => part.type === 'image_url'))`. -/
def hasImages (messages : List Msg) : Bool :=
  messages.any fun m =>
    m.role == "user" &&
      (match m.content with
       | .parts ps => ps.any isImagePart
       | _ => false)

/-- A tool-call fragment arriving in a native frame
(`{id?, function?: {name?, arguments?}}`, `function` flattened). -/
structure Frag where
  id : Option String
  name : Option String
  args : Option ArgRep

/-- A finalized tool-call record accumulated by the stream
(`{id, type: 'function', function: {name, arguments}}`, flattened;
`arguments` is always a string). -/
structure TCRec where
  id : String
  type : String
  name : String
  arguments : String
deriving DecidableEq

/-- JavaScript truthiness of a JSON value (`null`, `false`, `0` and `""`
are falsy; every array/object is truthy). -/
def jvalTruthy : JVal → Bool
  | .jnull => false
  | .jbool b => b
  | .jnum n => n != 0
  | .jstr s => s != ""
  | .jarr _ => true
  | .jobj _ => true

/-- The argument string stored for a newly appended record, following
`if (toolCall.function?.arguments)`: JavaScript-falsy arguments (absent,
empty string, or a falsy structured value such as `0`/`false`/`null`) leave
`argumentsString = ""`; a truthy string is kept as-is; a truthy structured
value is `JSON.stringify`ed. -/
def argStringOf : Option ArgRep → String
  | none => ""
  | some (.argStr s) => s
  | some (.argObj j) => if jvalTruthy j then stringify j else ""

/-- Process one tool-call fragment against the accumulated records
(both providers share this code): a fragment whose id is already present in
the accumulator is ignored entirely (`find(tc => tc.id === toolCall.id)`,
raw equality, so an absent id matches nothing); otherwise a record is
appended, its id taken from the fragment when *truthy* and otherwise
synthesized as `tool_${Date.now()}_${accumulated-count}`
(`toolCall.id || ...`, so an empty-string id is also replaced). -/
def processFrag (now : Nat) (acc : List TCRec) (f : Frag) : List TCRec :=
  let existing : Option TCRec :=
    match f.id with
    | some i => acc.find? (fun tc => tc.id == i)
    | none => none
  match existing with
  | some _ => acc
  | none =>
    acc ++ [{ id := jsOrS f.id ("tool_" ++ toString now ++ "_" ++ toString acc.length)
              type := "function"
              name := jsOrS f.name ""
              arguments := argStringOf f.args }]

/-- One native incremental frame of the backend chat stream
(`part.message?.content`, `part.message?.tool_calls`, `part.done`). -/
structure Frame where
  content : Option String
  tool_calls : Option (List Frag)
  done : Bool

/-- The accumulator of an in-flight stream (`accumulatedData`). -/
structure Accum where
  content : String
  toolCalls : List TCRec
deriving DecidableEq

/-- The normalized events the aggregator can emit (`chat-stream-start`,
`chat-stream-content`, `chat-stream-tool-calls`, `chat-stream-complete`,
`chat-stream-error`). -/
inductive Event where
  | start : String → String → Event
  | content : String → Event
  | toolCalls : List TCRec → Event
  | complete : String → Option (List TCRec) → String → Event
  | error : String → Event
deriving DecidableEq

/-- Observable actions of `handleChatStream`: a backend model-listing query,
the backend chat request, or an event sent to the renderer. -/
inductive ProvAction where
  | netList : ProvAction
  | netChat : ProvAction
  | send : Event → ProvAction
deriving DecidableEq

/-- Process one native frame (without its `done` check): emit a `content`
event for a truthy content fragment, then fold any tool-call fragments and
emit a `toolCalls` event carrying the entire current record list.
`now` is the `Date.now()` reading while this frame is handled. -/
def processFrame (now : Nat) (acc : Accum) (f : Frame) : List Event × Accum :=
  let step₁ : List Event × Accum :=
    match f.content with
    | some c =>
      if c ≠ "" then ([Event.content c], { acc with content := acc.content ++ c })
      else ([], acc)
    | none => ([], acc)
  match f.tool_calls with
  | some l =>
    if l.isEmpty then step₁
    else
      let tcs := l.foldl (processFrag now) step₁.2.toolCalls
      (step₁.1 ++ [Event.toolCalls tcs], { step₁.2 with toolCalls := tcs })
  | none => step₁

/-- Result of consuming the native frames: events emitted, final
accumulator, and whether a `done` frame was reached. -/
structure StreamRun where
  events : List Event
  acc : Accum
  done : Bool

/-- The `for await (const part of response)` loop shared by both providers:
frames are consumed in order (each paired with its `Date.now()` reading);
a frame with `done` set emits `chat-stream-complete` (tool calls omitted
when none accumulated, finish reason `'stop'`) and stops — frames after it
are never read. -/
def streamLoop : List (Frame × Nat) → Accum → StreamRun
  | [], acc => ⟨[], acc, false⟩
  | (f, now) :: rest, acc =>
    let step := processFrame now acc f
    if f.done then
      ⟨step.1 ++ [Event.complete step.2.content
          (if step.2.toolCalls.isEmpty then none else some step.2.toolCalls) "stop"],
        step.2, true⟩
    else
      let r := streamLoop rest step.2
      ⟨step.1 ++ r.events, r.acc, r.done⟩

/-- A transport error as caught by `handleChatStream`'s `catch`:
`error.code`, `error.message`, `error.status_code`. -/
structure ErrInfo where
  code : Option String
  message : Option String
  status_code : Option Nat
deriving DecidableEq

/-- The transport-side outcome of the chat request: the frames actually
delivered, and — when the transport throws after them instead of closing the
stream — the thrown error. When a `done` frame occurs first the rest is
never observed. -/
structure ChatOutcome where
  frames : List (Frame × Nat)
  errAfter : Option ErrInfo

/-- `LocalOllamaProvider`'s catch-block message rewriting; `model` is the raw
`model` argument (`undefined` interpolates as the text `"undefined"`). -/
def localErrorMessage (model : Option String) (e : ErrInfo) : String :=
  if e.code = some "ECONNREFUSED" then
    "Cannot connect to local Ollama. Please ensure Ollama is running (ollama serve)."
  else if strIncludes (e.message.getD "") "model not found" then
    "Model not found. Please pull it first using: ollama pull " ++
      (match model with | some s => s | none => "undefined")
  else
    match e.message with
    | some m => m
    | none => "undefined"

/-- The full `chat-stream-error` payload text of the local provider. -/
def localFmt (model : Option String) (e : ErrInfo) : String :=
  "Failed to get chat completion: " ++ localErrorMessage model e

/-- The message `OllamaTurboProvider`'s catch block computes
(`error.message || 'Unknown error'`, with a dedicated 502 text). The
computed text is never delivered: the catch crashes before sending
(see `turboOnErr`). -/
def turboFmt (e : ErrInfo) : String :=
  if e.status_code = some 502 then
    "Service temporarily unavailable (502). The model might be loading or under heavy load. Please try again in a moment."
  else jsOrS e.message "Unknown error"

/-- The streaming phase common to both providers: send `chat-stream-start`,
issue the chat request, consume the frames, and — only when no `done` frame
ended the loop — let the provider's `catch` block handle a trailing
transport error (`onErr`: for the local provider a single formatted
`chat-stream-error`; for the turbo provider nothing, since its catch
crashes before sending, see `turboOnErr`). A stream that ends without a
`done` frame and without a transport error emits nothing further. -/
def streamPhaseActions (sid : String) (chat : ChatOutcome)
    (onErr : ErrInfo → List ProvAction) : List ProvAction :=
  let r := streamLoop chat.frames ⟨"", []⟩
  ProvAction.send (Event.start sid "assistant") :: ProvAction.netChat ::
    (r.events.map ProvAction.send ++
      (if r.done then []
       else
         match chat.errAfter with
         | none => []
         | some e => onErr e))

/-- The `chat-stream-error` text for images sent to a non-vision model
(identical in both providers). -/
def visionErrMsg (m : String) : String :=
  "The selected model (" ++ m ++ ") does not support image inputs. Please select a vision-capable model."

/-- `LocalOllamaProvider.handleChatStream` after the `listModels` call:
resolve the model (`model || settings.model || availableModels[0]?.id`),
error out when none resolves or it is not locally available, build the
capability info, reject images for non-vision models, normalize messages
(a thrown `JSON.parse` lands in the catch), then run the streaming phase. -/
def localAfterList (avail : List ModelDesc) (settingsModel model : Option String)
    (capTable : List (String × CapEntry)) (messages : List Msg)
    (tStart : Nat) (chat : ChatOutcome) : List ProvAction :=
  match truthyOpt (jsOrOpt model (jsOrOpt settingsModel ((avail.head?).map (·.id)))) with
  | none =>
    [ProvAction.send (Event.error "No models available. Please pull a model first using: ollama pull <model-name>")]
  | some mdl =>
    if !(avail.any fun m => m.id == mdl) then
      [ProvAction.send (Event.error ("Model " ++ mdl ++ " not found locally. Please pull it first using: ollama pull " ++ mdl))]
    else
      let modelInfo := localModelInfo capTable avail mdl
      if hasImages messages && !modelInfo.vision_supported && !modelInfo.vision then
        [ProvAction.send (Event.error (visionErrMsg mdl))]
      else
        match cleanMessages messages with
        | .error e => [ProvAction.send (Event.error (localFmt model ⟨none, some e, none⟩))]
        | .ok _ =>
          streamPhaseActions ("local_ollama_" ++ toString tStart) chat
            (fun e => [ProvAction.send (Event.error (localFmt model e))])

/-- `LocalOllamaProvider.handleChatStream`: first `listModels()` runs (with
its cache and possible backend query), then `localAfterList`. Only
`listModels` touches the cache state. `tList`/`tStart` are the `Date.now()`
readings at the listing and at stream start. -/
def localHandleChatStream (st : CacheState) (tList : Nat) (backend : Option (List RawModel))
    (settingsModel model : Option String) (capTable : List (String × CapEntry))
    (messages : List Msg) (tStart : Nat) (chat : ChatOutcome) :
    List ProvAction × CacheState :=
  let r := listModels st tList backend
  ((if r.queries = 0 then [] else [ProvAction.netList]) ++
    localAfterList r.models settingsModel model capTable messages tStart chat,
   r.state)

/-- What `OllamaTurboProvider.handleChatStream`'s `catch` block emits: 
nothing. The catch references the `try`-scoped `const` bindings
`modelToUse` and `apiParams` (in its 502 logging and, unconditionally, in
the `chat-stream-error` payload), so evaluating the handler raises a
`ReferenceError` before `event.sender.send` runs; no event is emitted and
the exception escapes the method. -/
def turboOnErr : ErrInfo → List ProvAction := fun _ => []

/-- `OllamaTurboProvider.handleChatStream` after initialization: resolve the
model (`model || settings.model || ""`), reject images for non-vision
models, normalize messages (a thrown `JSON.parse` error lands in the
crashing catch, `turboOnErr` — nothing is emitted), then run the streaming
phase. No model-listing call is made. -/
def turboAfterInit (settingsModel model : Option String)
    (capTable : List (String × CapEntry)) (messages : List Msg)
    (tStart : Nat) (chat : ChatOutcome) : List ProvAction :=
  let mdl := jsOrS model (jsOrS settingsModel "")
  let modelInfo := turboModelInfo capTable mdl
  if hasImages messages && !modelInfo.vision_supported then
    [ProvAction.send (Event.error (visionErrMsg mdl))]
  else
    match cleanMessages messages with
    | .error e => turboOnErr ⟨none, some e, none⟩
    | .ok _ => streamPhaseActions ("ollama_turbo_" ++ toString tStart) chat turboOnErr

/-- `OllamaTurboProvider.handleChatStream`: the lazy `initialize` throws
inside the `try` when the API key is unusable; the thrown configuration
error reaches the crashing catch (`turboOnErr`), so nothing is emitted.
Otherwise `turboAfterInit` runs. -/
def turboHandleChatStream (apiKey : Option String) (isInit : Bool)
    (settingsModel model : Option String) (capTable : List (String × CapEntry))
    (messages : List Msg) (tStart : Nat) (chat : ChatOutcome) : List ProvAction :=
  if !isInit && !validKey apiKey then
    turboOnErr ⟨none,
      some "API key not configured. Please add your Ollama API key in settings.", none⟩
  else
    turboAfterInit settingsModel model capTable messages tStart chat

/-- `ProviderFactory`'s instance map: `cacheKey ↦ provider instance`
(instances are abstract tokens allocated from a counter), plus the
`currentProvider` field. -/
structure Registry where
  providers : List (String × Nat)
  nextInstance : Nat
  currentProvider : Option Nat
deriving DecidableEq

/-- The factory's initial state (empty instance map). -/
def initialRegistry : Registry := ⟨[], 0, none⟩

/-- The registered provider identifiers. -/
def availableProviderIds : List String := ["ollama-turbo", "local-ollama"]

/-- `providerId || 'ollama-turbo'`. -/
def resolveProviderId (pid : Option String) : String := jsOrS pid "ollama-turbo"

/-- `ProviderFactory.getProvider`: settings enter only through their
`JSON.stringify` fingerprint (`settingsJson`); the cache key is
`` `${id}_${JSON.stringify(settings)}` ``. A cached instance is returned
as-is (early return: `currentProvider` untouched); otherwise a fresh
instance is created, initialized (`initResult` — a thrown initialization
error propagates and nothing is cached), stored, and made current. -/
def getProvider (reg : Registry) (pid : Option String) (settingsJson : String)
    (initResult : Except String Unit) : Except String (Nat × Registry) :=
  let id := resolveProviderId pid
  if !(availableProviderIds.contains id) then
    .error ("Unknown provider: " ++ id)
  else
    let cacheKey := id ++ "_" ++ settingsJson
    match List.lookup cacheKey reg.providers with
    | some inst => .ok (inst, reg)
    | none =>
      match initResult with
      | .ok _ =>
        .ok (reg.nextInstance,
          ⟨reg.providers ++ [(cacheKey, reg.nextInstance)], reg.nextInstance + 1,
            some reg.nextInstance⟩)
      | .error e => .error e

/-- `limitContentLength` from `src/electron/utils.js`; the string is
modelled as a list of characters, `maxLength` as an integer (callers could
pass any number). A falsy content (`null`, `undefined`, `''`) yields `''`. -/
def limitContentLength (content : Option (List Char)) (maxLength : Int) : List Char :=
  match content with
  | none => []
  | some s =>
    if s.isEmpty then []
    else if (s.length : Int) ≤ maxLength then s
    else s.take (max maxLength 3 - 3).toNat ++ "...".data

/-- Terminal events of the stream protocol (`complete` or `error`). -/
def isTerminalEvent : Event → Bool
  | .complete _ _ _ => true
  | .error _ => true
  | _ => false

/-- An action that sends an event to the renderer. -/
def isSendAction : ProvAction → Bool
  | .send _ => true
  | _ => false

/-- An action that sends a terminal event. -/
def isTerminalAction : ProvAction → Bool
  | .send e => isTerminalEvent e
  | _ => false

/-- Number of terminal events in an emitted event list. -/
def eventTerminalCount (l : List Event) : Nat := (l.filter isTerminalEvent).length

/-- Number of terminal events sent along an action trace. -/
def terminalActionCount (l : List ProvAction) : Nat := (l.filter isTerminalAction).length

/-- No event at all is emitted in an event list after a terminal event. -/
def noEvAfterTerminal : List Event → Bool
  | [] => true
  | e :: rest => if isTerminalEvent e then rest.isEmpty else noEvAfterTerminal rest

/-- No event is sent along an action trace after a terminal event. -/
def noSendAfterTerminal : List ProvAction → Bool
  | [] => true
  | a :: rest =>
    if isTerminalAction a then rest.all (fun x => !isSendAction x)
    else noSendAfterTerminal rest

/-- The delivered frames include one with the `done` flag set. -/
def hasDoneFrame (frames : List (Frame × Nat)) : Bool := frames.any fun p => p.1.done

/-- `jsOrS` never returns the empty string when its default is non-empty. -/
theorem jsOrS_ne_empty (a : Option String) (d : String) (hd : d ≠ "") : jsOrS a d ≠ "" := by
  cases a with
  | none => simpa [jsOrS] using hd
  | some s =>
    by_cases h : s = "" <;> simp [jsOrS, h, hd]

/-- C10: `limitContentLength` returns `''` for falsy content, returns the
input unchanged when its length is at most `maxLength`, and otherwise
returns the first `max(maxLength,3) - 3` characters of the input followed by
`'...'`, of length exactly `max(maxLength,3)`. -/
theorem limitContentLength_spec (content : Option (List Char)) (maxLength : Int) :
    (limitContentLength none maxLength = [] ∧ limitContentLength (some []) maxLength = []) ∧
    (∀ s, content = some s → (s.length : Int) ≤ maxLength →
      limitContentLength content maxLength = s) ∧
    (∀ s, content = some s → s ≠ [] → maxLength < (s.length : Int) →
      limitContentLength content maxLength =
        s.take (max maxLength 3 - 3).toNat ++ "...".data ∧
      (limitContentLength content maxLength).length = (max maxLength 3).toNat) := by
  refine ⟨⟨rfl, by simp [limitContentLength]⟩, ?_, ?_⟩
  · rintro s rfl hle
    rcases s with _ | ⟨c, t⟩
    · simp [limitContentLength]
    · simp only [limitContentLength, List.isEmpty_cons, if_neg]
      rw [if_pos hle]
      simp
  · rintro s rfl hs hgt
    have hne : s.isEmpty = false := by
      cases s with
      | nil => exact absurd rfl hs
      | cons c t => rfl
    have hnotle : ¬ ((s.length : Int) ≤ maxLength) := by omega
    constructor
    · simp [limitContentLength, hne, hnotle]
    · simp only [limitContentLength, hne, Bool.false_eq_true, if_false, hnotle,
        List.length_append, List.length_take]
      have hdots : ("...".data).length = 3 := rfl
      rw [hdots]
      omega

/-- C10 witness: a concrete truncation (`maxLength = 4`, length-5 input). -/
theorem limitContentLength_spec_w :
    limitContentLength (some "abcde".data) 4 = "abcde".data.take 1 ++ "...".data ∧
    (limitContentLength (some "abcde".data) 4).length = 4 := by
  have h := (limitContentLength_spec (some "abcde".data) 4).2.2 "abcde".data rfl (by decide) (by decide)
  exact ⟨by simpa using h.1, by simpa using h.2⟩

/-- C5: `validateConnection` of both providers is total over every backend
outcome and settings value, and always yields a structured result — success,
or a failure carrying a non-empty human-readable diagnostic (exceptions are
caught inside the method, never thrown past the provider boundary). -/
theorem validateConnection_structured_result (o : VCOutcome) (apiKey : Option String)
    (isInit : Bool) (o₂ : VCOutcome) :
    ((localValidateConnection o).success = true ∨
      ∃ m, (localValidateConnection o).error = some m ∧ m ≠ "") ∧
    ((turboValidateConnection apiKey isInit o₂).success = true ∨
      ∃ m, (turboValidateConnection apiKey isInit o₂).error = some m ∧ m ≠ "") := by
  constructor
  · cases o with
    | resp r =>
      cases r with
      | none =>
        exact Or.inr ⟨"Local Ollama server is not responding. Please ensure Ollama is running locally.",
          rfl, by decide⟩
      | some l => exact Or.inl rfl
    | exn code msg =>
      by_cases hc : code = some "ECONNREFUSED"
      · exact Or.inr ⟨"Cannot connect to local Ollama server. Please ensure Ollama is running (ollama serve).",
          by simp [localValidateConnection, hc], by decide⟩
      · exact Or.inr ⟨jsOrS msg "Failed to connect to local Ollama server",
          by simp [localValidateConnection, hc], jsOrS_ne_empty msg _ (by decide)⟩
  · by_cases hk : !isInit && !validKey apiKey
    · exact Or.inr ⟨"API key not configured. Please add your Ollama API key in settings.",
        by simp [turboValidateConnection, hk], by decide⟩
    · cases o₂ with
      | resp r =>
        cases r with
        | none =>
          exact Or.inr ⟨"No models available", by simp [turboValidateConnection, hk], by decide⟩
        | some l =>
          cases l with
          | nil =>
            exact Or.inr ⟨"No models available", by simp [turboValidateConnection, hk], by decide⟩
          | cons a t => exact Or.inl (by simp [turboValidateConnection, hk])
      | exn code msg =>
        exact Or.inr ⟨jsOrS msg "Failed to connect to Ollama Turbo",
          by simp [turboValidateConnection, hk], jsOrS_ne_empty msg _ (by decide)⟩

/-- C7: a successful `pullModel`/`deleteModel` clears the model cache
(so the next `listModels()` issues a backend query no matter how fresh the
cache was or what the clock says), while a failed one leaves the cache slot
untouched. -/
theorem mutation_invalidates_cache (st : CacheState) (m : String) (now : Nat)
    (backend : Option (List RawModel)) :
    ((pullModel st (.ok ())).2.cachedModels = none ∧
      (listModels (pullModel st (.ok ())).2 now backend).queries = 1 ∧
      (pullModel st (.error m)).2 = st) ∧
    ((deleteModel st (.ok ())).2.cachedModels = none ∧
      (listModels (deleteModel st (.ok ())).2 now backend).queries = 1 ∧
      (deleteModel st (.error m)).2 = st) := by
  refine ⟨⟨rfl, ?_, rfl⟩, ⟨rfl, ?_, rfl⟩⟩ <;>
    · simp only [pullModel, deleteModel, listModels]
      cases backend <;> rfl

/-- C3: on a provider instance whose cache slot is empty, a `listModels()`
call at `t₁` whose backend query succeeds populates the cache; a second call
less than the 60s TTL later issues no further query and returns the cached
sequence unchanged (one query in total), while a second call more than the
TTL later issues a fresh backend query (two in total). `0 < t₁` reflects a
real clock reading (a zero timestamp is JavaScript-falsy and never cached
as fresh). -/
theorem listModels_ttl_caching (st : CacheState) (t₁ t₂ : Nat) (raws : List RawModel)
    (backend₂ : Option (List RawModel)) (hempty : st.cachedModels = none)
    (ht : 0 < t₁) (_hle : t₁ ≤ t₂) :
    ((t₂ - t₁ < MODEL_CACHE_DURATION →
        (listModels st t₁ (some raws)).queries +
          (listModels (listModels st t₁ (some raws)).state t₂ backend₂).queries = 1 ∧
        (listModels (listModels st t₁ (some raws)).state t₂ backend₂).models =
          (listModels st t₁ (some raws)).models) ∧
     (MODEL_CACHE_DURATION < t₂ - t₁ →
        (listModels st t₁ (some raws)).queries = 1 ∧
        (listModels (listModels st t₁ (some raws)).state t₂ backend₂).queries = 1)) := by
  obtain ⟨cm, lc⟩ := st
  cases hempty
  have h₁ : listModels ⟨none, lc⟩ t₁ (some raws) =
      ⟨raws.map transformModel, ⟨some (raws.map transformModel), some t₁⟩, 1⟩ := by
    cases lc <;> rfl
  rw [h₁]
  constructor
  · intro hlt
    have h₂ : listModels ⟨some (raws.map transformModel), some t₁⟩ t₂ backend₂ =
        ⟨raws.map transformModel, ⟨some (raws.map transformModel), some t₁⟩, 0⟩ := by
      simp only [listModels]
      rw [if_pos ⟨by omega, hlt⟩]
    rw [h₂]
    exact ⟨rfl, rfl⟩
  · intro hgt
    refine ⟨rfl, ?_⟩
    have hcond : ¬ (t₁ ≠ 0 ∧ t₂ - t₁ < MODEL_CACHE_DURATION) := by
      rintro ⟨-, h⟩; omega
    simp only [listModels]
    rw [if_neg hcond]
    cases backend₂ <;> rfl

/-- C3 witness: fresh cache, successful fetch at `t = 1000`, second call at
`t = 31000` (within TTL): one backend query in total. -/
theorem listModels_ttl_caching_w :
    (listModels ⟨none, none⟩ 1000 (some [⟨"m", none, none, none, none⟩])).queries +
      (listModels (listModels ⟨none, none⟩ 1000 (some [⟨"m", none, none, none, none⟩])).state
        31000 none).queries = 1 :=
  ((listModels_ttl_caching ⟨none, none⟩ 1000 31000 [⟨"m", none, none, none, none⟩] none
    rfl (by decide) (by decide)).1 (by decide)).1

/-- C9: a message whose content is already a plain text string (and which
carries no tool calls) is normalized to a message with the same role and the
very same text, and normalizing again is a fixed point. -/
theorem cleanMessages_text_roundtrip (m : Msg) (s : String)
    (hc : m.content = Content.str s) (ht : m.tool_calls = none) :
    ∃ m₂, cleanMessages [m] = .ok [m₂] ∧ m₂.role = m.role ∧
      m₂.content = Content.str s ∧ cleanMessages [m₂] = .ok [m₂] := by
  obtain ⟨role, content, tcs, rea, isS, imgs⟩ := m
  simp only at hc ht
  cases hc
  cases ht
  refine ⟨⟨role, Content.str s, none, none, none, imgs⟩, ?_, rfl, rfl, ?_⟩ <;>
    · simp only [cleanMessages, List.mapM, List.mapM.loop, cleanMsg1, ite_self]
      rfl

/-- C9 witness: a concrete text-only message (with bookkeeping fields set)
round-trips. -/
theorem cleanMessages_text_roundtrip_w :
    ∃ m₂, cleanMessages [⟨"user", Content.str "hello", none, some "thinking", some true, none⟩]
        = .ok [m₂] ∧
      m₂.role = "user" ∧ m₂.content = Content.str "hello" ∧ cleanMessages [m₂] = .ok [m₂] :=
  cleanMessages_text_roundtrip ⟨"user", Content.str "hello", none, some "thinking", some true, none⟩
    "hello" rfl rfl

/-- Association-list lookup distributes over append. -/
theorem lookup_append_assoc (k : String) (l₁ l₂ : List (String × Nat)) :
    List.lookup k (l₁ ++ l₂) =
      ((List.lookup k l₁).orElse fun _ => List.lookup k l₂) := by
  induction l₁ with
  | nil => simp [List.lookup]
  | cons p t ih =>
    obtain ⟨a, b⟩ := p
    simp only [List.cons_append, List.lookup]
    cases h : k == a <;> simp [ih]

/-- Appending distinct suffixes to the same string yields distinct strings. -/
theorem str_append_ne (p s t : String) (h : s ≠ t) : p ++ s ≠ p ++ t := by
  intro he
  apply h
  have hd := congrArg String.data he
  simp only [String.data_append] at hd
  have h₂ := List.append_cancel_left hd
  cases s
  cases t
  exact congrArg String.mk h₂

/-- `getProvider` unfolded for a registered provider id. -/
theorem getProvider_eq (reg : Registry) (pid : Option String) (s : String)
    (init : Except String Unit) (hav : resolveProviderId pid ∈ availableProviderIds) :
    getProvider reg pid s init =
      (match List.lookup (resolveProviderId pid ++ "_" ++ s) reg.providers with
       | some inst => .ok (inst, reg)
       | none =>
         match init with
         | .ok _ =>
           .ok (reg.nextInstance,
             ⟨reg.providers ++ [(resolveProviderId pid ++ "_" ++ s, reg.nextInstance)],
               reg.nextInstance + 1, some reg.nextInstance⟩)
         | .error e => .error e) := by
  unfold getProvider
  rw [if_neg (by simp [List.contains, List.elem_iff, hav])]

/-- C8: `ProviderFactory.getProvider` creates an instance lazily on first
use of a `(providerId, settings)` key (the factory starts empty), returns
the identical instance for every later call with the same key leaving the
registry unchanged, and a call with a different settings fingerprint under
the same provider id yields a fresh instance distinct from the first. -/
theorem getProvider_instance_caching :
    (∀ reg pid s init p reg₂, getProvider reg pid s init = .ok (p, reg₂) →
       ∀ init₂, getProvider reg₂ pid s init₂ = .ok (p, reg₂)) ∧
    (∀ pid s, resolveProviderId pid ∈ availableProviderIds →
       getProvider initialRegistry pid s (.ok ()) =
         .ok (0, ⟨[(resolveProviderId pid ++ "_" ++ s, 0)], 1, some 0⟩)) ∧
    (∀ pid s t, resolveProviderId pid ∈ availableProviderIds → s ≠ t →
       ∃ p q reg₁ reg₂,
         getProvider initialRegistry pid s (.ok ()) = .ok (p, reg₁) ∧
         getProvider reg₁ pid t (.ok ()) = .ok (q, reg₂) ∧ p ≠ q) := by
  refine ⟨?_, ?_, ?_⟩
  · intro reg pid s init p reg₂ h init₂
    by_cases hav : resolveProviderId pid ∈ availableProviderIds
    · rw [getProvider_eq reg pid s init hav] at h
      rw [getProvider_eq reg₂ pid s init₂ hav]
      rcases hl : List.lookup (resolveProviderId pid ++ "_" ++ s) reg.providers with _ | inst
      · rw [hl] at h
        cases init with
        | error e => exact absurd h (by simp)
        | ok u =>
          simp only [Except.ok.injEq, Prod.mk.injEq] at h
          obtain ⟨hp, hreg⟩ := h
          subst hp
          subst hreg
          rw [lookup_append_assoc, hl]
          simp [List.lookup]
      · rw [hl] at h
        simp only [Except.ok.injEq, Prod.mk.injEq] at h
        obtain ⟨hp, hreg⟩ := h
        subst hreg
        rw [hl, hp]
    · unfold getProvider at h
      rw [if_pos (by simp [List.contains, List.elem_iff, hav])] at h
      exact absurd h (by simp)
  · intro pid s hav
    rw [getProvider_eq _ _ _ _ hav]
    simp [initialRegistry, List.lookup]
  · intro pid s t hav hne
    refine ⟨0, 1, ⟨[(resolveProviderId pid ++ "_" ++ s, 0)], 1, some 0⟩,
      ⟨[(resolveProviderId pid ++ "_" ++ s, 0), (resolveProviderId pid ++ "_" ++ t, 1)],
        2, some 1⟩, ?_, ?_, by decide⟩
    · rw [getProvider_eq _ _ _ _ hav]
      simp [initialRegistry, List.lookup]
    · rw [getProvider_eq _ _ _ _ hav]
      have hk : ((resolveProviderId pid ++ "_" ++ t) ==
          (resolveProviderId pid ++ "_" ++ s)) = false := by
        have h₂ := str_append_ne (resolveProviderId pid ++ "_") t s (Ne.symm hne)
        simpa [String.append_assoc] using h₂
      simp [List.lookup, hk]

/-- C8 witness: default provider id, fingerprints `"a"` then `"b"`: two
distinct instances. -/
theorem getProvider_instance_caching_w :
    ∃ p q reg₁ reg₂,
      getProvider initialRegistry none "a" (.ok ()) = .ok (p, reg₁) ∧
      getProvider reg₁ none "b" (.ok ()) = .ok (q, reg₂) ∧ p ≠ q :=
  getProvider_instance_caching.2.2 none "a" "b" (by decide) (by decide)

/-- C2 counterexample: a stream delivers two fragments for id `"x"` with
argument texts `{"a":` and `1}`; the finalized record keeps only the first
fragment's text — the texts are not concatenated. -/
theorem toolcall_fragments_not_concatenated_cex :
    (((streamLoop
        [(⟨none, some [⟨some "x", some "f", some (ArgRep.argStr "\x7b\"a\":")⟩], false⟩, 1),
         (⟨none, some [⟨some "x", none, some (ArgRep.argStr "1\x7d")⟩], true⟩, 2)]
        ⟨"", []⟩).acc.toolCalls.find? fun tc => tc.id == "x").map (fun tc => tc.arguments)
      = some "\x7b\"a\":") ∧
    ¬ (((streamLoop
        [(⟨none, some [⟨some "x", some "f", some (ArgRep.argStr "\x7b\"a\":")⟩], false⟩, 1),
         (⟨none, some [⟨some "x", none, some (ArgRep.argStr "1\x7d")⟩], true⟩, 2)]
        ⟨"", []⟩).acc.toolCalls.find? fun tc => tc.id == "x").map (fun tc => tc.arguments)
      = some "\x7b\"a\":1\x7d") := by
  constructor
  · decide
  · decide

/-- C2 (amended): a tool-call fragment whose id is already in the
accumulator is ignored entirely; for a (non-empty, JavaScript-truthy) id
not yet accumulated, the record's argument string is the *first* fragment's
text when delivered as a string, the canonical JSON serialization when
delivered as a truthy structured value, and `""` when the structured value
is JavaScript-falsy (`0`, `false`, `null`). -/
theorem processFrag_first_fragment_wins (now : Nat) (acc : List TCRec) (f : Frag)
    (i : String) (hid : f.id = some i) (hne : i ≠ "") :
    (((acc.find? fun tc => tc.id == i).isSome = true → processFrag now acc f = acc) ∧
     ((acc.find? fun tc => tc.id == i) = none → ∀ s, f.args = some (.argStr s) →
        processFrag now acc f = acc ++ [⟨i, "function", jsOrS f.name "", s⟩]) ∧
     ((acc.find? fun tc => tc.id == i) = none → ∀ j, jvalTruthy j = true →
        f.args = some (.argObj j) →
        processFrag now acc f = acc ++ [⟨i, "function", jsOrS f.name "", stringify j⟩]) ∧
     ((acc.find? fun tc => tc.id == i) = none → ∀ j, jvalTruthy j = false →
        f.args = some (.argObj j) →
        processFrag now acc f = acc ++ [⟨i, "function", jsOrS f.name "", ""⟩])) := by
  refine ⟨?_, ?_, ?_, ?_⟩
  · intro hsome
    rcases hf : acc.find? fun tc => tc.id == i with _ | r
    · rw [hf] at hsome; simp at hsome
    · simp [processFrag, hid, hf]
  · intro hnone s hargs
    simp [processFrag, hid, hnone, hargs, argStringOf, jsOrS, hne]
  · intro hnone j htruthy hargs
    simp [processFrag, hid, hnone, hargs, argStringOf, jsOrS, hne, htruthy]
  · intro hnone j hfalsy hargs
    simp [processFrag, hid, hnone, hargs, argStringOf, jsOrS, hne, hfalsy]

/-- C2 witness: a single fragment for fresh id `"x"` with string arguments
`"ab"` is stored verbatim. -/
theorem processFrag_first_fragment_wins_w :
    processFrag 3 [] ⟨some "x", some "f", some (ArgRep.argStr "ab")⟩ =
      [⟨"x", "function", "f", "ab"⟩] := by
  have h := (processFrag_first_fragment_wins 3 [] ⟨some "x", some "f", some (ArgRep.argStr "ab")⟩
    "x" rfl (by decide)).2.1 (by decide) "ab" rfl
  simpa [jsOrS] using h

/-- C6 counterexample: the same id-less tool-call fragment, in the same
frame of the same stream, processed in two runs whose `Date.now()` readings
differ, gets two different synthesized ids (`tool_1_0` vs `tool_2_0`) — the
id depends on the wall clock, not on the stream identifier. -/
theorem synthesized_tool_id_time_dependent_cex :
    ((streamLoop [(⟨none, some [⟨none, some "g", none⟩], false⟩, 1)] ⟨"", []⟩).acc.toolCalls.map
        (fun r => r.id) = ["tool_1_0"]) ∧
    ((streamLoop [(⟨none, some [⟨none, some "g", none⟩], false⟩, 2)] ⟨"", []⟩).acc.toolCalls.map
        (fun r => r.id) = ["tool_2_0"]) ∧
    (streamLoop [(⟨none, some [⟨none, some "g", none⟩], false⟩, 1)] ⟨"", []⟩).acc.toolCalls.map
        (fun r => r.id) ≠
      (streamLoop [(⟨none, some [⟨none, some "g", none⟩], false⟩, 2)] ⟨"", []⟩).acc.toolCalls.map
        (fun r => r.id) := by
  refine ⟨by decide, by decide, by decide⟩

/-- C6 (amended): a fragment without an id gets the synthesized id
`tool_${Date.now()}_${n}` where `Date.now()` is read when the record is
appended and `n` is the number of records already accumulated (new or not)
— deterministic in the clock reading and position, but not a function of
the stream identifier. -/
theorem synthesized_tool_id_shape (now : Nat) (acc : List TCRec) (f : Frag)
    (hid : f.id = none) :
    processFrag now acc f =
      acc ++ [⟨"tool_" ++ toString now ++ "_" ++ toString acc.length, "function",
        jsOrS f.name "", argStringOf f.args⟩] := by
  simp [processFrag, hid, jsOrS]

/-- C6 witness: one id-less fragment at clock reading 5 over an empty
accumulator synthesizes `tool_5_0`. -/
theorem synthesized_tool_id_shape_w :
    processFrag 5 [] ⟨none, some "g", none⟩ = [⟨"tool_5_0", "function", "g", ""⟩] := by
  have h := synthesized_tool_id_shape 5 [] ⟨none, some "g", none⟩ rfl
  simpa [jsOrS, argStringOf] using h

/-- C4 counterexample: local provider, cold model cache, capability entry
for `"m"` with vision support off, a user message with an image part: the
vision error is emitted, but a backend model-listing network call precedes
it (the local provider must check model availability first), so the claim
that no network call is issued before the error does not hold. -/
theorem vision_gate_network_call_cex :
    (localHandleChatStream ⟨none, none⟩ 5 (some [⟨"m", none, none, none, none⟩]) none (some "m")
        [("m", ⟨8192, false, false, false, false⟩)]
        [⟨"user", Content.parts [MsgPart.image (some "http://x/i.png") none], none, none, none, none⟩]
        7 ⟨[], none⟩).1 =
      [ProvAction.netList,
        ProvAction.send (Event.error
          "The selected model (m) does not support image inputs. Please select a vision-capable model.")] := by
  decide

/-- C4 (amended): with a capability entry declaring no vision support and a
message carrying an image part, `handleChatStream` emits the unsupported-
feature error and never issues the chat request; the cloud variant issues no
network call at all, while the local variant performs at most its one
model-listing backend query (needed for the model-availability check)
before emitting the error. -/
theorem vision_gate_before_chat :
    (∀ st tList backend settingsModel model capTable messages tStart chat mdl ce,
      truthyOpt (jsOrOpt model (jsOrOpt settingsModel
          (((listModels st tList backend).models.head?).map (·.id)))) = some mdl →
      ((listModels st tList backend).models.any fun m => m.id == mdl) = true →
      lookupCap capTable mdl = some ce →
      ce.vision_supported = false → ce.vision = false →
      hasImages messages = true →
      (localHandleChatStream st tList backend settingsModel model capTable messages tStart chat).1 =
        (if (listModels st tList backend).queries = 0 then [] else [ProvAction.netList]) ++
          [ProvAction.send (Event.error (visionErrMsg mdl))]) ∧
    (∀ apiKey isInit settingsModel model capTable messages tStart chat mdl ce,
      (isInit = true ∨ validKey apiKey = true) →
      jsOrS model (jsOrS settingsModel "") = mdl →
      lookupCap capTable mdl = some ce →
      ce.vision_supported = false →
      hasImages messages = true →
      turboHandleChatStream apiKey isInit settingsModel model capTable messages tStart chat =
        [ProvAction.send (Event.error (visionErrMsg mdl))]) := by
  constructor
  · intro st tList backend settingsModel model capTable messages tStart chat mdl ce
      hmdl hexists hcap hvs hv himg
    simp only [localHandleChatStream, localAfterList, hmdl, hexists, Bool.not_true,
      Bool.false_eq_true, if_false, localModelInfo, hcap, himg, hvs, hv,
      Bool.not_false, Bool.and_self, if_true]
  · intro apiKey isInit settingsModel model capTable messages tStart chat mdl ce
      hinit hmdl hcap hvs himg
    have hkey : (!isInit && !validKey apiKey) = false := by
      rcases hinit with h | h <;> simp [h]
    simp only [turboHandleChatStream, hkey, Bool.false_eq_true, if_false,
      turboAfterInit, hmdl, turboModelInfo, hcap, himg, hvs, Bool.not_false,
      Bool.and_self, if_true]

/-- C4 witness: turbo provider, initialized, capability table declaring
`"m"` non-vision, image-bearing message: only the error event is emitted. -/
theorem vision_gate_before_chat_w :
    turboHandleChatStream (some "k") true none (some "m")
        [("m", ⟨131072, false, false, false, false⟩)]
        [⟨"user", Content.parts [MsgPart.image (some "http://x/i.png") none], none, none, none, none⟩]
        7 ⟨[], none⟩ =
      [ProvAction.send (Event.error (visionErrMsg "m"))] :=
  vision_gate_before_chat.2 (some "k") true none (some "m")
    [("m", ⟨131072, false, false, false, false⟩)]
    [⟨"user", Content.parts [MsgPart.image (some "http://x/i.png") none], none, none, none, none⟩]
    7 ⟨[], none⟩ "m" ⟨131072, false, false, false, false⟩
    (Or.inl rfl) (by decide) (by decide) rfl (by decide)

/-- Terminal-event count distributes over append. -/
theorem eventTerminalCount_append (a b : List Event) :
    eventTerminalCount (a ++ b) = eventTerminalCount a + eventTerminalCount b := by
  simp [eventTerminalCount, List.filter_append]

/-- Terminal-action count distributes over append. -/
theorem terminalActionCount_append (a b : List ProvAction) :
    terminalActionCount (a ++ b) = terminalActionCount a + terminalActionCount b := by
  simp [terminalActionCount, List.filter_append]

/-- A non-terminal head does not change the terminal-action count. -/
theorem terminalActionCount_cons_nonterm (a : ProvAction) (l : List ProvAction)
    (h : isTerminalAction a = false) :
    terminalActionCount (a :: l) = terminalActionCount l := by
  simp [terminalActionCount, List.filter_cons, h]

/-- `processFrame` emits only `content`/`toolCalls` events, never a
terminal one. -/
theorem processFrame_no_terminal (now : Nat) (acc : Accum) (f : Frame) :
    eventTerminalCount (processFrame now acc f).1 = 0 := by
  rcases f with ⟨c, tcs, d⟩
  simp only [processFrame]
  rcases c with _ | c <;> rcases tcs with _ | l <;>
    simp [eventTerminalCount, isTerminalEvent, List.filter_append, List.filter_cons] <;>
    split_ifs <;>
    simp [eventTerminalCount, isTerminalEvent, List.filter_cons]

/-- The loop reaches the terminal state exactly when the delivered frames
contain a `done` frame. -/
theorem streamLoop_done (frames : List (Frame × Nat)) (acc : Accum) :
    (streamLoop frames acc).done = hasDoneFrame frames := by
  induction frames generalizing acc with
  | nil => rfl
  | cons p rest ih =>
    obtain ⟨f, now⟩ := p
    cases hd : f.done
    · simp only [streamLoop, hd, Bool.false_eq_true, if_false, hasDoneFrame, List.any_cons,
        Bool.false_or]
      exact ih _
    · simp [streamLoop, hd, hasDoneFrame]

/-- The loop emits exactly one terminal event when a `done` frame occurs and
none otherwise. -/
theorem streamLoop_terminalCount (frames : List (Frame × Nat)) (acc : Accum) :
    eventTerminalCount (streamLoop frames acc).events =
      if (streamLoop frames acc).done then 1 else 0 := by
  induction frames generalizing acc with
  | nil => rfl
  | cons p rest ih =>
    obtain ⟨f, now⟩ := p
    cases hd : f.done
    · simp only [streamLoop, hd, Bool.false_eq_true, if_false]
      rw [eventTerminalCount_append, processFrame_no_terminal, ih]
      simp
    · simp only [streamLoop, hd, if_true]
      rw [eventTerminalCount_append, processFrame_no_terminal]
      simp [eventTerminalCount, isTerminalEvent, List.filter_cons]

/-- Appending after a terminal-free event list keeps `noEvAfterTerminal`. -/
theorem noEvAfterTerminal_append (a b : List Event) (h : eventTerminalCount a = 0) :
    noEvAfterTerminal (a ++ b) = noEvAfterTerminal b := by
  induction a with
  | nil => rfl
  | cons e t ih =>
    have hterm : isTerminalEvent e = false := by
      by_contra hc
      have hc₂ : isTerminalEvent e = true := by simpa using hc
      simp [eventTerminalCount, List.filter_cons, hc₂] at h
    have ht : eventTerminalCount t = 0 := by
      simpa [eventTerminalCount, List.filter_cons, hterm] using h
    rw [List.cons_append]
    simp only [noEvAfterTerminal, hterm, Bool.false_eq_true, if_false]
    exact ih ht

/-- Along the loop's event list, nothing is emitted after a terminal event. -/
theorem streamLoop_noEvAfter (frames : List (Frame × Nat)) (acc : Accum) :
    noEvAfterTerminal (streamLoop frames acc).events = true := by
  induction frames generalizing acc with
  | nil => rfl
  | cons p rest ih =>
    obtain ⟨f, now⟩ := p
    cases hd : f.done
    · simp only [streamLoop, hd, Bool.false_eq_true, if_false]
      rw [noEvAfterTerminal_append _ _ (processFrame_no_terminal now acc f)]
      exact ih _
    · simp only [streamLoop, hd, if_true]
      rw [noEvAfterTerminal_append _ _ (processFrame_no_terminal now acc f)]
      rfl

/-- Sending a list of events yields as many terminal actions as the list
has terminal events. -/
theorem terminalActionCount_map_send (l : List Event) :
    terminalActionCount (l.map ProvAction.send) = eventTerminalCount l := by
  induction l with
  | nil => rfl
  | cons e t ih =>
    simp only [List.map_cons, terminalActionCount, eventTerminalCount, List.filter_cons]
    cases hterm : isTerminalEvent e
    · have ha : isTerminalAction (ProvAction.send e) = false := hterm
      simpa [ha, hterm] using ih
    · have ha : isTerminalAction (ProvAction.send e) = true := hterm
      simpa [ha, hterm] using ih

/-- Appending after a terminal-free action list keeps `noSendAfterTerminal`. -/
theorem noSendAfterTerminal_append_left (a b : List ProvAction)
    (h : terminalActionCount a = 0) :
    noSendAfterTerminal (a ++ b) = noSendAfterTerminal b := by
  induction a with
  | nil => rfl
  | cons x t ih =>
    have hterm : isTerminalAction x = false := by
      by_contra hc
      have hc₂ : isTerminalAction x = true := by simpa using hc
      simp [terminalActionCount, List.filter_cons, hc₂] at h
    have ht : terminalActionCount t = 0 := by
      simpa [terminalActionCount, List.filter_cons, hterm] using h
    rw [List.cons_append]
    simp only [noSendAfterTerminal, hterm, Bool.false_eq_true, if_false]
    exact ih ht

/-- Mapping `send` over an event list with nothing after its terminal event
yields an action trace with no send after its terminal action. -/
theorem map_send_noSend (l : List Event) (h : noEvAfterTerminal l = true) :
    noSendAfterTerminal (l.map ProvAction.send) = true := by
  induction l with
  | nil => rfl
  | cons e t ih =>
    cases hterm : isTerminalEvent e
    · simp only [noEvAfterTerminal, hterm, Bool.false_eq_true, if_false] at h
      have ha : isTerminalAction (ProvAction.send e) = false := hterm
      simp only [List.map_cons, noSendAfterTerminal, ha, Bool.false_eq_true, if_false]
      exact ih h
    · simp only [noEvAfterTerminal, hterm, if_true] at h
      have ht : t = [] := by simpa using h
      subst ht
      have ha : isTerminalAction (ProvAction.send e) = true := hterm
      simp [noSendAfterTerminal, ha]

/-- The streaming phase never sends an event after a terminal event,
provided the provider's catch handler does not (true of both: the local
catch sends one error event, the turbo catch sends nothing). -/
theorem streamPhaseActions_noSend (sid : String) (chat : ChatOutcome)
    (onErr : ErrInfo → List ProvAction)
    (honErr : ∀ e, noSendAfterTerminal (onErr e) = true) :
    noSendAfterTerminal (streamPhaseActions sid chat onErr) = true := by
  unfold streamPhaseActions
  have hstart : isTerminalAction (ProvAction.send (Event.start sid "assistant")) = false := rfl
  have hchat : isTerminalAction ProvAction.netChat = false := rfl
  simp only [noSendAfterTerminal, hstart, hchat, Bool.false_eq_true, if_false]
  by_cases hd : (streamLoop chat.frames ⟨"", []⟩).done
  · simp only [hd, if_true, List.append_nil]
    exact map_send_noSend _ (streamLoop_noEvAfter _ _)
  · simp only [hd, Bool.false_eq_true, if_false]
    have hcount : terminalActionCount ((streamLoop chat.frames ⟨"", []⟩).events.map
        ProvAction.send) = 0 := by
      rw [terminalActionCount_map_send, streamLoop_terminalCount]
      simp [hd]
    rw [noSendAfterTerminal_append_left _ _ hcount]
    cases chat.errAfter with
    | none => rfl
    | some e => exact honErr e

/-- Terminal-event count of the streaming phase: one when a `done` frame
occurs; otherwise whatever the provider's catch emits for a trailing
transport error (`k` terminal events), and zero without one. -/
theorem streamPhaseActions_count (sid : String) (chat : ChatOutcome)
    (onErr : ErrInfo → List ProvAction) (k : Nat)
    (hk : ∀ e, terminalActionCount (onErr e) = k) :
    terminalActionCount (streamPhaseActions sid chat onErr) =
      if hasDoneFrame chat.frames then 1
      else if chat.errAfter.isSome then k else 0 := by
  unfold streamPhaseActions
  rw [terminalActionCount_cons_nonterm (ProvAction.send (Event.start sid "assistant")) _ rfl,
    terminalActionCount_cons_nonterm ProvAction.netChat _ rfl,
    terminalActionCount_append, terminalActionCount_map_send, streamLoop_terminalCount,
    streamLoop_done]
  by_cases hd : hasDoneFrame chat.frames
  · simp [hd, terminalActionCount]
  · simp only [hd, Bool.false_eq_true, if_false, Nat.zero_add]
    cases he : chat.errAfter with
    | none => simp [terminalActionCount]
    | some e => simp [hk e]

/-- A lone error event: one terminal action, nothing after it. -/
theorem singleton_error_props (m : String) :
    noSendAfterTerminal [ProvAction.send (Event.error m)] = true ∧
    terminalActionCount [ProvAction.send (Event.error m)] = 1 :=
  ⟨rfl, rfl⟩

/-- Terminal-event discipline of `localAfterList`: at most one terminal
event, nothing sent after it, and exactly one when a `done` frame or a
trailing transport error exists. -/
theorem localAfterList_props (avail : List ModelDesc) (settingsModel model : Option String)
    (capTable : List (String × CapEntry)) (messages : List Msg) (tStart : Nat)
    (chat : ChatOutcome) :
    noSendAfterTerminal (localAfterList avail settingsModel model capTable messages tStart chat)
        = true ∧
    terminalActionCount (localAfterList avail settingsModel model capTable messages tStart chat)
        ≤ 1 ∧
    ((hasDoneFrame chat.frames || chat.errAfter.isSome) = true →
      terminalActionCount (localAfterList avail settingsModel model capTable messages tStart chat)
        = 1) := by
  unfold localAfterList
  split
  · exact ⟨rfl, Nat.le_refl 1, fun _ => rfl⟩
  · split
    · exact ⟨rfl, Nat.le_refl 1, fun _ => rfl⟩
    · dsimp only
      split
      · exact ⟨rfl, Nat.le_refl 1, fun _ => rfl⟩
      · split
        · exact ⟨rfl, Nat.le_refl 1, fun _ => rfl⟩
        · refine ⟨streamPhaseActions_noSend _ _ _ (fun e => rfl), ?_, ?_⟩
          · rw [streamPhaseActions_count _ _
              (fun e => [ProvAction.send (Event.error (localFmt model e))]) 1 (fun e => rfl)]
            split
            · simp
            · split <;> simp
          · intro hcond
            rw [streamPhaseActions_count _ _
              (fun e => [ProvAction.send (Event.error (localFmt model e))]) 1 (fun e => rfl)]
            rcases (Bool.or_eq_true _ _).mp hcond with h | h
            · rw [if_pos h]
            · by_cases hd : hasDoneFrame chat.frames
              · rw [if_pos hd]
              · rw [if_neg hd, if_pos h]

/-- Terminal-event discipline of `turboAfterInit`: at most one terminal
event, nothing sent after it; when the messages normalize, exactly one
terminal event whenever a `done` frame arrives. A trailing transport error
contributes none — the catch crashes before sending (`turboOnErr`). -/
theorem turboAfterInit_props (settingsModel model : Option String)
    (capTable : List (String × CapEntry)) (messages : List Msg) (tStart : Nat)
    (chat : ChatOutcome) :
    noSendAfterTerminal (turboAfterInit settingsModel model capTable messages tStart chat)
        = true ∧
    terminalActionCount (turboAfterInit settingsModel model capTable messages tStart chat)
        ≤ 1 ∧
    ((∃ cm, cleanMessages messages = .ok cm) → hasDoneFrame chat.frames = true →
      terminalActionCount (turboAfterInit settingsModel model capTable messages tStart chat)
        = 1) := by
  unfold turboAfterInit
  dsimp only
  split
  · exact ⟨rfl, Nat.le_refl 1, fun _ _ => rfl⟩
  · split
    · refine ⟨rfl, Nat.zero_le 1, ?_⟩
      rename_i e heq
      rintro ⟨cm, hcm⟩ -
      rw [hcm] at heq
      exact absurd heq (by simp)
    · refine ⟨streamPhaseActions_noSend _ _ _ (fun e => rfl), ?_, ?_⟩
      · rw [streamPhaseActions_count _ _ turboOnErr 0 (fun e => rfl)]
        split
        · simp
        · split <;> simp
      · rintro - hd
        rw [streamPhaseActions_count _ _ turboOnErr 0 (fun e => rfl), if_pos hd]

/-- C1 (amended): on every input, `handleChatStream` of either provider
sends at most one terminal event and sends nothing after a terminal event.
The local variant sends exactly one terminal event whenever the frames
include a `done` frame or the transport errors; a frame sequence that ends
without a `done` frame and without a transport error produces *no* terminal
event. The cloud variant sends exactly one terminal event whenever a `done`
frame arrives (given a usable key and normalizable messages), but its error
paths — invalid API key, message-normalization failure, transport error —
emit no terminal event at all, because its catch block references the
`try`-scoped `modelToUse`/`apiParams` and crashes before sending. -/
theorem handleChatStream_one_terminal :
    (∀ st tList backend settingsModel model capTable messages tStart chat,
      noSendAfterTerminal (localHandleChatStream st tList backend settingsModel model
          capTable messages tStart chat).1 = true ∧
      terminalActionCount (localHandleChatStream st tList backend settingsModel model
          capTable messages tStart chat).1 ≤ 1 ∧
      ((hasDoneFrame chat.frames || chat.errAfter.isSome) = true →
        terminalActionCount (localHandleChatStream st tList backend settingsModel model
          capTable messages tStart chat).1 = 1)) ∧
    (∀ apiKey isInit settingsModel model capTable messages tStart chat,
      noSendAfterTerminal (turboHandleChatStream apiKey isInit settingsModel model
          capTable messages tStart chat) = true ∧
      terminalActionCount (turboHandleChatStream apiKey isInit settingsModel model
          capTable messages tStart chat) ≤ 1 ∧
      ((isInit = true ∨ validKey apiKey = true) →
        (∃ cm, cleanMessages messages = .ok cm) →
        hasDoneFrame chat.frames = true →
        terminalActionCount (turboHandleChatStream apiKey isInit settingsModel model
          capTable messages tStart chat) = 1)) := by
  constructor
  · intro st tList backend settingsModel model capTable messages tStart chat
    obtain ⟨h₁, h₂, h₃⟩ := localAfterList_props (listModels st tList backend).models
      settingsModel model capTable messages tStart chat
    have hpre : terminalActionCount
        (if (listModels st tList backend).queries = 0 then ([] : List ProvAction)
         else [ProvAction.netList]) = 0 := by
      split <;> rfl
    refine ⟨?_, ?_, ?_⟩
    · show noSendAfterTerminal (_ ++ _) = true
      rw [noSendAfterTerminal_append_left _ _ hpre]
      exact h₁
    · show terminalActionCount (_ ++ _) ≤ 1
      rw [terminalActionCount_append, hpre]
      simpa using h₂
    · intro hcond
      show terminalActionCount (_ ++ _) = 1
      rw [terminalActionCount_append, hpre]
      simpa using h₃ hcond
  · intro apiKey isInit settingsModel model capTable messages tStart chat
    unfold turboHandleChatStream
    split
    · rename_i hcond
      refine ⟨rfl, Nat.zero_le 1, ?_⟩
      intro hkey _ _
      exfalso
      rcases hkey with h | h <;> simp [h] at hcond
    · obtain ⟨h₁, h₂, h₃⟩ := turboAfterInit_props settingsModel model capTable messages tStart chat
      exact ⟨h₁, h₂, fun _ => h₃⟩

/-- C1 witness: the amended invariant at a concrete stream whose single
frame carries a `done` flag — exactly one terminal event. -/
theorem handleChatStream_one_terminal_w :
    terminalActionCount (localHandleChatStream ⟨none, none⟩ 5
        (some [⟨"m", none, none, none, none⟩]) none (some "m") []
        [⟨"user", Content.str "hi", none, none, none, none⟩] 7
        ⟨[(⟨some "ok", none, true⟩, 8)], none⟩).1 = 1 :=
  (handleChatStream_one_terminal.1 ⟨none, none⟩ 5 (some [⟨"m", none, none, none, none⟩])
    none (some "m") [] [⟨"user", Content.str "hi", none, none, none, none⟩] 7
    ⟨[(⟨some "ok", none, true⟩, 8)], none⟩).2.2 (by decide)

/-- C1 counterexample: a stream that starts, delivers one content frame,
and then closes without a `done` frame and without throwing emits zero
terminal events — not exactly one as claimed. -/
theorem handleChatStream_terminal_cex :
    (localHandleChatStream ⟨none, none⟩ 5 (some [⟨"m", none, none, none, none⟩])
        none (some "m") [] [⟨"user", Content.str "hi", none, none, none, none⟩] 7
        ⟨[(⟨some "partial answer", none, false⟩, 8)], none⟩).1 =
      [ProvAction.netList, ProvAction.send (Event.start "local_ollama_7" "assistant"),
        ProvAction.netChat, ProvAction.send (Event.content "partial answer")] ∧
    terminalActionCount (localHandleChatStream ⟨none, none⟩ 5
        (some [⟨"m", none, none, none, none⟩]) none (some "m") []
        [⟨"user", Content.str "hi", none, none, none, none⟩] 7
        ⟨[(⟨some "partial answer", none, false⟩, 8)], none⟩).1 = 0 := by
  constructor
  · decide
  · decide
